import Mathlib

/-!
Verification development for `src/inc/weibo_place_scraper.py`.

The Python module fetches paginated point-of-interest ("poi") data from a
remote API under a shared `asyncio.Semaphore`, drains per-page results in
completion order, aggregates them, and writes one CSV file per query.

The shallow embedding below translates the module's functions:
* `fetch_page` (lines 54-90): one page fetch gated by the semaphore.
  The network call (`session.get`) and JSON decode (`response.json()`)
  happen *before* the `try:` block, so faults raised there propagate to
  the caller; only faults raised while walking the already-decoded
  payload are caught and converted to the `([], 0)` return.  Exceptions
  propagating out of a function are modelled as `Except.error`.
* `main` (lines 93-129): the drain loop over `asyncio.as_completed`
  results, with its `try/except` absorbing per-task exceptions, plus the
  final CSV write (the Sink call).
* `fetch_data` (lines 132-146): primary query awaited to completion
  first, then all sub-region queries gathered concurrently with
  `return_exceptions=True`, all sharing one semaphore.

A separate small-step machine models the batch's semaphore scheduling:
page tasks acquire a slot, hold it for the network request, and release
it; sub-region page tasks exist only after every primary page resolved
(because `await main(place_name, 140, semaphore)` returns first).
-/

namespace WeiboPlaceScraper

/-- A decoded poi record, as built at lines 75-80 of the source:
`{"poiid": ..., "title": ..., "lat": ..., "lon": ...}`.  Field values are
opaque strings here; the source copies them verbatim from the payload. -/
structure Poi where
  poiid : String
  title : String
  lat : String
  lon : String
deriving DecidableEq

/-- One raw entry of the decoded payload's `pois` array.  A field is
`none` when the key is absent, in which case `item["..."]` raises
`KeyError` inside the `try:` block. -/
structure RawPoi where
  poiid : Option String
  title : Option String
  lat : Option String
  lon : Option String
deriving DecidableEq

/-- The `data["data"]["pois"]` access at line 73: `missing` models a
`KeyError` (no `"data"` or no `"pois"` key), `present items` models a
pois array (empty list and `null` are both falsy, merged into
`present []`). -/
inductive PoisField where
  | missing : PoisField
  | present (items : List RawPoi) : PoisField
deriving DecidableEq

/-- What the remote interaction yields for one page:
`netError` models `session.get` raising (network failure),
`decodeError` models `await response.json()` raising (decode failure),
`payload` models a successfully decoded JSON body. -/
inductive PageResponse where
  | netError (msg : String) : PageResponse
  | decodeError (msg : String) : PageResponse
  | payload (pf : PoisField) : PageResponse
deriving DecidableEq

/-- Console notices printed by the module, kept as structured events. -/
inductive Notice where
  | fetchException : Notice
  | endOfData : Notice
  | progress (site : String) (completed : Nat) (totalPages : Nat) (cumulative : Nat) : Notice
  | skipNone (completed : Nat) (totalPages : Nat) : Notice
  | skipExn (e : String) : Notice
deriving DecidableEq

/-- Semaphore / network events emitted by one `fetch_page` call. -/
inductive FEv where
  | acquire : FEv
  | request : FEv
  | release : FEv
deriving DecidableEq

/-- Reading the four fields of one pois entry (lines 76-79).  `none`
models a `KeyError` aborting the `try:` body. -/
def extractPoi (item : RawPoi) : Option Poi :=
  match item.poiid, item.title, item.lat, item.lon with
  | some a, some b, some c, some d => some ⟨a, b, c, d⟩
  | _, _, _, _ => none

/-- The `for item in data["data"]["pois"]` loop (lines 74-82):
appends each decoded record to `pois_list` and increments `num_pois`;
a `KeyError` (`none`) aborts the whole loop. -/
def poisLoop : List RawPoi → List Poi → Nat → Option (List Poi × Nat)
  | [], acc, n => some (acc, n)
  | item :: rest, acc, n =>
    match extractPoi item with
    | some p => poisLoop rest (acc ++ [p]) (n + 1)
    | none => none

/-- The `try:`/`except:` body of `fetch_page` (lines 69-90), applied to
the already-decoded payload.  Returns the printed notices and the
returned `(pois_list, num_pois)` tuple.  The returned list is wrapped in
`Option` because the caller checks `if pois_list is not None`; this
function always produces `some`. -/
def fetch_page_body (pf : PoisField) : List Notice × (Option (List Poi) × Nat) :=
  match pf with
  | PoisField.missing => ([Notice.fetchException], (some [], 0))
  | PoisField.present items =>
    if items = [] then
      ([Notice.endOfData], (some [], 0))
    else
      match poisLoop items [] 0 with
      | some (l, n) => ([], (some l, n))
      | none => ([Notice.fetchException], (some [], 0))

/-- Result of a completed computation: semaphore/request events emitted,
notices printed, and either a returned value (`Except.ok`) or an
exception propagating to the caller (`Except.error`). -/
abbrev FRes (α : Type) := List FEv × List Notice × Except String α

/-- `async with semaphore:` (line 66): acquire a slot, run the body, and
release the slot on exit whether the body returned or raised. -/
def withSem {α : Type} (body : FRes α) : FRes α :=
  (FEv.acquire :: body.1 ++ [FEv.release], body.2.1, body.2.2)

/-- `async with session.get(url, ...)` plus `await response.json()`
(lines 67-68): one network request; the decoded payload on success, a
propagating exception on network or decode failure. -/
def sessionGet (resp : PageResponse) : FRes PoisField :=
  match resp with
  | PageResponse.netError m => ([FEv.request], [], Except.error m)
  | PageResponse.decodeError m => ([FEv.request], [], Except.error m)
  | PageResponse.payload pf => ([FEv.request], [], Except.ok pf)

/-- Sequencing of two stages: if the first raised, the second never
runs; otherwise events and notices accumulate. -/
def bindF {α β : Type} (x : FRes α) (f : α → FRes β) : FRes β :=
  match x.2.2 with
  | Except.error e => (x.1, x.2.1, Except.error e)
  | Except.ok a => ((x.1 ++ (f a).1, x.2.1 ++ (f a).2.1, (f a).2.2) : FRes β)

/-- The `try:` stage as a computation: pure, never raises. -/
def tryStage (pf : PoisField) : FRes (Option (List Poi) × Nat) :=
  ([], (fetch_page_body pf).1, Except.ok (fetch_page_body pf).2)

/-- `fetch_page` (lines 54-90) with full instrumentation: semaphore
events, notices, and the outcome (returned tuple or propagating
exception), as a function of the page's remote response. -/
def fetch_pageFull (resp : PageResponse) : FRes (Option (List Poi) × Nat) :=
  withSem (bindF (sessionGet resp) tryStage)

/-- The outcome a caller of `fetch_page` observes: either the returned
`(pois_list, num_pois)` tuple or a propagating exception. -/
def fetch_page (resp : PageResponse) : Except String (Option (List Poi) × Nat) :=
  (fetch_pageFull resp).2.2

/-- Notices printed during one `fetch_page` call. -/
def fetch_pageNotices (resp : PageResponse) : List Notice :=
  (fetch_pageFull resp).2.1

/-- Semaphore / request events of one `fetch_page` call. -/
def fetch_pageEvents (resp : PageResponse) : List FEv :=
  (fetch_pageFull resp).1

/-- What `await task_result` yields in `main`'s drain loop for one page
task: either the `(pois_list, num_pois)` tuple or a re-raised
exception. -/
abbrev TaskResult := Except String (Option (List Poi) × Nat)

/-- The mutable state of `main`'s drain loop (lines 108-110), plus the
notices it prints.  `skipped_pages` counts the skip notices the loop
emits (the `else:` branch at line 123 and the `except:` branch at line
125); the source tracks skips only through these printed notices, with
no separate counter variable. -/
structure QState where
  total_num_pois : Nat := 0
  completed_pages : Nat := 0
  all_pois : List Poi := []
  skipped_pages : Nat := 0
  notices : List Notice := []
deriving DecidableEq

/-- The `try:` body of one drain-loop iteration (lines 116-123):
`await task_result` re-raises a task's exception; otherwise the state is
updated per the `if pois_list is not None` branch. -/
def processResult (site : String) (num_pages : Nat) (st : QState) (r : TaskResult) :
    Except String QState :=
  match r with
  | Except.error e => Except.error e
  | Except.ok (some pois_list, num_pois) =>
    Except.ok { st with
      total_num_pois := st.total_num_pois + num_pois,
      completed_pages := st.completed_pages + 1,
      notices := st.notices ++
        [Notice.progress site (st.completed_pages + 1) num_pages (st.total_num_pois + num_pois)],
      all_pois := st.all_pois ++ pois_list }
  | Except.ok (none, _) =>
    Except.ok { st with
      skipped_pages := st.skipped_pages + 1,
      notices := st.notices ++ [Notice.skipNone st.completed_pages num_pages] }

/-- One full drain-loop iteration (lines 112-125): the `except
Exception` clause converts a re-raised task exception into a skip notice
and the loop continues. -/
def drainStep (site : String) (num_pages : Nat) (st : QState) (r : TaskResult) : QState :=
  match processResult site num_pages st r with
  | Except.ok st' => st'
  | Except.error e =>
    { st with
      skipped_pages := st.skipped_pages + 1,
      notices := st.notices ++ [Notice.skipExn e] }

/-- The whole drain loop of `main` (lines 112-125), folded over the page
task results in completion order.  Quantifying theorems over all
`results` lists covers every completion order. -/
def runQuery (site : String) (num_pages : Nat) (results : List TaskResult) : QState :=
  results.foldl (drainStep site num_pages) {}

/-- One call the Sink receives: `df.to_csv(path)` at line 128, with the
query name it belongs to recorded alongside the path. -/
structure SinkCall where
  site : String
  path : String
  rows : List Poi
deriving DecidableEq

/-- The CSV path built at line 128. -/
def csvPath (site : String) : String :=
  "place_all/" ++ site ++ "_place.csv"

/-- `main` (lines 93-129): drain all page results, then write the
aggregate to the Sink.  `sinkOk = false` models `df.to_csv` raising
(e.g. the `place_all` directory is missing) — the only fault source in
`main` outside the absorbed per-page faults; such a fault propagates out
of `main`. -/
def mainE (site : String) (num_pages : Nat) (results : List TaskResult) (sinkOk : Bool) :
    Except String (QState × SinkCall) :=
  let st := runQuery site num_pages results
  if sinkOk then Except.ok (st, ⟨site, csvPath site, st.all_pois⟩)
  else Except.error "OSError: to_csv failed"

/-- Outcome of one batch run: the primary query's outcome and, per
sub-region (tagged with its composite query name), either an outcome or
the exception `asyncio.gather(..., return_exceptions=True)` captured. -/
structure BatchOutcome where
  primary : QState × SinkCall
  subs : List (String × Except String (QState × SinkCall))

/-- The environment one query's `main` call runs against: its page task
results in completion order, and whether its Sink write succeeds. -/
abbrev QueryEnv := List TaskResult × Bool

/-- One sub-region task as built at line 145: `main` called on the
composite query name, paired with that name. -/
def subQuery (place : String) (num_pages : Nat) (d : String) (e : QueryEnv) :
    String × Except String (QState × SinkCall) :=
  (place ++ d, mainE (place ++ d) num_pages e.1 e.2)

/-- The batch driver shape of `fetch_data` (lines 132-146), generic in
the place names and page count it hardcodes: `await main(primary)` runs
the primary query to completion first (its fault, if any, propagates —
there is no `try` around line 142), then every sub-region query runs
under `asyncio.gather(..., return_exceptions=True)`, which captures each
sub-region `main`'s exception as a value in the result list. -/
def runBatch (place : String) (subRegions : List String) (num_pages : Nat)
    (primaryResults : List TaskResult) (primarySinkOk : Bool)
    (env : List QueryEnv) : Except String BatchOutcome :=
  match mainE place num_pages primaryResults primarySinkOk with
  | Except.error e => Except.error e
  | Except.ok p =>
    Except.ok { primary := p,
                subs := (subRegions.zip env).map (fun q => subQuery place num_pages q.1 q.2) }

/-- The primary place hardcoded at line 134. -/
def place_name : String := "上海"

/-- The sub-region list hardcoded at lines 135-139. -/
def all_places : List String :=
  ["黄浦区", "徐汇区", "长宁区", "静安区", "普陀区",
   "虹口区", "杨浦区", "浦东新区", "闵行区", "宝山区",
   "嘉定区", "金山区", "松江区", "青浦区", "奉贤区", "崇明区"]

/-- `fetch_data` (lines 132-146): the batch driver instantiated at the
hardcoded primary place, sub-region list and 140 pages per query. -/
def fetch_data (primaryResults : List TaskResult) (primarySinkOk : Bool)
    (env : List QueryEnv) : Except String BatchOutcome :=
  runBatch place_name all_places 140 primaryResults primarySinkOk env

/-!
Small-step machine for the batch's semaphore scheduling.

`asyncio.Semaphore(max_concurrent)` (line 133) holds an integer count of
available slots; `acquire` suspends while the count is zero and then
decrements it; `release` increments it.  Every page task wraps its
network request in `async with semaphore` (line 66), so it releases
exactly the slot it acquired, on return and on exception alike.  Because
line 142 `await`s the primary query's `main` to completion before line
145 creates the sub-region tasks, a sub-region page can only acquire a
slot once no primary page is pending or in flight.  Page tasks of
different sub-region queries are pooled: the machine allows them to
interleave arbitrarily.
-/

/-- Machine state: available semaphore slots plus how many primary-query
(`p_`) and sub-region (`s_`) page tasks are pending, in flight (holding
a slot, performing their request), or done. -/
structure SemState where
  avail : Int
  p_pending : Nat
  p_inflight : Nat
  p_done : Nat
  s_pending : Nat
  s_inflight : Nat
  s_done : Nat
deriving DecidableEq

/-- One scheduling step of the batch run. -/
inductive BatchStep : SemState → SemState → Prop where
  | pAcquire (s : SemState) (hp : 0 < s.p_pending) (ha : 0 < s.avail) :
      BatchStep s { s with
        avail := s.avail - 1,
        p_pending := s.p_pending - 1,
        p_inflight := s.p_inflight + 1 }
  | pRelease (s : SemState) (h : 0 < s.p_inflight) :
      BatchStep s { s with
        avail := s.avail + 1,
        p_inflight := s.p_inflight - 1,
        p_done := s.p_done + 1 }
  | sAcquire (s : SemState) (hs : 0 < s.s_pending) (ha : 0 < s.avail)
      (hpp : s.p_pending = 0) (hpi : s.p_inflight = 0) :
      BatchStep s { s with
        avail := s.avail - 1,
        s_pending := s.s_pending - 1,
        s_inflight := s.s_inflight + 1 }
  | sRelease (s : SemState) (h : 0 < s.s_inflight) :
      BatchStep s { s with
        avail := s.avail + 1,
        s_inflight := s.s_inflight - 1,
        s_done := s.s_done + 1 }

/-- Initial state of a batch run with capacity `N`, `P` primary pages
and `S` sub-region pages: all slots available, nothing started. -/
def initState (N P S : Nat) : SemState :=
  ⟨(N : Int), P, 0, 0, S, 0, 0⟩

/-- States reachable during a batch run. -/
inductive Reachable (N P S : Nat) : SemState → Prop where
  | init : Reachable N P S (initState N P S)
  | step {s t : SemState} : Reachable N P S s → BatchStep s t → Reachable N P S t

/-! ### Classifiers and characterization lemmas for the drain loop -/

/-- A task result the drain loop skips: a re-raised exception, or a
`None` record list (the `else:` branch at line 122; `fetch_page` never
actually produces `None`). -/
def isSkip : TaskResult → Bool
  | Except.error _ => true
  | Except.ok (none, _) => true
  | Except.ok (some _, _) => false

/-- The record count the drain loop accumulates for one result. -/
def numOf : TaskResult → Nat
  | Except.ok (some _, n) => n
  | _ => 0

/-- The records the drain loop appends for one result. -/
def poisOf : TaskResult → List Poi
  | Except.ok (some l, _) => l
  | _ => []

/-- All records contributed by a results list, in drain order. -/
def queryRecords (rs : List TaskResult) : List Poi :=
  rs.foldr (fun r acc => poisOf r ++ acc) []

/-- Whether a notice is one of the two skip notices. -/
def isSkipNotice : Notice → Bool
  | Notice.skipNone _ _ => true
  | Notice.skipExn _ => true
  | _ => false

/-- Whether a notice is a per-page progress notice. -/
def isProgressNotice : Notice → Bool
  | Notice.progress _ _ _ _ => true
  | _ => false

lemma drainStep_completed (site : String) (P : Nat) (st : QState) (r : TaskResult) :
    (drainStep site P st r).completed_pages
      = st.completed_pages + (if isSkip r then 0 else 1) := by
  cases r with
  | error e => simp [drainStep, processResult, isSkip]
  | ok v =>
    obtain ⟨ol, n⟩ := v
    cases ol with
    | none => simp [drainStep, processResult, isSkip]
    | some l => simp [drainStep, processResult, isSkip]

lemma drainStep_skipped (site : String) (P : Nat) (st : QState) (r : TaskResult) :
    (drainStep site P st r).skipped_pages
      = st.skipped_pages + (if isSkip r then 1 else 0) := by
  cases r with
  | error e => simp [drainStep, processResult, isSkip]
  | ok v =>
    obtain ⟨ol, n⟩ := v
    cases ol with
    | none => simp [drainStep, processResult, isSkip]
    | some l => simp [drainStep, processResult, isSkip]

lemma drainStep_total (site : String) (P : Nat) (st : QState) (r : TaskResult) :
    (drainStep site P st r).total_num_pois = st.total_num_pois + numOf r := by
  cases r with
  | error e => simp [drainStep, processResult, numOf]
  | ok v =>
    obtain ⟨ol, n⟩ := v
    cases ol with
    | none => simp [drainStep, processResult, numOf]
    | some l => simp [drainStep, processResult, numOf]

lemma drainStep_all_pois (site : String) (P : Nat) (st : QState) (r : TaskResult) :
    (drainStep site P st r).all_pois = st.all_pois ++ poisOf r := by
  cases r with
  | error e => simp [drainStep, processResult, poisOf]
  | ok v =>
    obtain ⟨ol, n⟩ := v
    cases ol with
    | none => simp [drainStep, processResult, poisOf]
    | some l => simp [drainStep, processResult, poisOf]

lemma drainStep_skip_notices (site : String) (P : Nat) (st : QState) (r : TaskResult) :
    (drainStep site P st r).notices.countP isSkipNotice
      = st.notices.countP isSkipNotice + (if isSkip r then 1 else 0) := by
  cases r with
  | error e => simp [drainStep, processResult, isSkip, isSkipNotice]
  | ok v =>
    obtain ⟨ol, n⟩ := v
    cases ol with
    | none => simp [drainStep, processResult, isSkip, isSkipNotice]
    | some l => simp [drainStep, processResult, isSkip, isSkipNotice]

lemma drainStep_progress_notices (site : String) (P : Nat) (st : QState) (r : TaskResult) :
    (drainStep site P st r).notices.countP isProgressNotice
      = st.notices.countP isProgressNotice + (if isSkip r then 0 else 1) := by
  cases r with
  | error e => simp [drainStep, processResult, isSkip, isProgressNotice]
  | ok v =>
    obtain ⟨ol, n⟩ := v
    cases ol with
    | none => simp [drainStep, processResult, isSkip, isProgressNotice]
    | some l => simp [drainStep, processResult, isSkip, isProgressNotice]

lemma foldl_drain_completed (site : String) (P : Nat) (rs : List TaskResult) :
    ∀ st : QState, (rs.foldl (drainStep site P) st).completed_pages
      = st.completed_pages + rs.countP (fun r => !(isSkip r)) := by
  induction rs with
  | nil => intro st; simp
  | cons r rs ih =>
    intro st
    rw [List.foldl_cons, ih, drainStep_completed, List.countP_cons]
    cases h : isSkip r <;> · simp [h]; try omega

lemma foldl_drain_skipped (site : String) (P : Nat) (rs : List TaskResult) :
    ∀ st : QState, (rs.foldl (drainStep site P) st).skipped_pages
      = st.skipped_pages + rs.countP isSkip := by
  induction rs with
  | nil => intro st; simp
  | cons r rs ih =>
    intro st
    rw [List.foldl_cons, ih, drainStep_skipped, List.countP_cons]
    cases h : isSkip r <;> · simp [h]; try omega

lemma foldl_drain_total (site : String) (P : Nat) (rs : List TaskResult) :
    ∀ st : QState, (rs.foldl (drainStep site P) st).total_num_pois
      = st.total_num_pois + (rs.map numOf).sum := by
  induction rs with
  | nil => intro st; simp
  | cons r rs ih =>
    intro st
    rw [List.foldl_cons, ih, drainStep_total, List.map_cons, List.sum_cons]
    omega

lemma foldl_drain_all_pois (site : String) (P : Nat) (rs : List TaskResult) :
    ∀ st : QState, (rs.foldl (drainStep site P) st).all_pois
      = st.all_pois ++ queryRecords rs := by
  induction rs with
  | nil => intro st; simp [queryRecords]
  | cons r rs ih =>
    intro st
    rw [List.foldl_cons, ih, drainStep_all_pois]
    show st.all_pois ++ poisOf r ++ queryRecords rs
        = st.all_pois ++ (poisOf r ++ queryRecords rs)
    rw [List.append_assoc]

lemma foldl_drain_skip_notices (site : String) (P : Nat) (rs : List TaskResult) :
    ∀ st : QState, (rs.foldl (drainStep site P) st).notices.countP isSkipNotice
      = st.notices.countP isSkipNotice + rs.countP isSkip := by
  induction rs with
  | nil => intro st; simp
  | cons r rs ih =>
    intro st
    rw [List.foldl_cons, ih, drainStep_skip_notices, List.countP_cons]
    cases h : isSkip r <;> · simp [h]; try omega

lemma foldl_drain_progress_notices (site : String) (P : Nat) (rs : List TaskResult) :
    ∀ st : QState, (rs.foldl (drainStep site P) st).notices.countP isProgressNotice
      = st.notices.countP isProgressNotice + rs.countP (fun r => !(isSkip r)) := by
  induction rs with
  | nil => intro st; simp
  | cons r rs ih =>
    intro st
    rw [List.foldl_cons, ih, drainStep_progress_notices, List.countP_cons]
    cases h : isSkip r <;> · simp [h]; try omega

lemma runQuery_completed (site : String) (P : Nat) (rs : List TaskResult) :
    (runQuery site P rs).completed_pages = rs.countP (fun r => !(isSkip r)) := by
  rw [runQuery, foldl_drain_completed]; simp

lemma runQuery_skipped (site : String) (P : Nat) (rs : List TaskResult) :
    (runQuery site P rs).skipped_pages = rs.countP isSkip := by
  rw [runQuery, foldl_drain_skipped]; simp

lemma runQuery_total (site : String) (P : Nat) (rs : List TaskResult) :
    (runQuery site P rs).total_num_pois = (rs.map numOf).sum := by
  rw [runQuery, foldl_drain_total]; simp

lemma runQuery_all_pois (site : String) (P : Nat) (rs : List TaskResult) :
    (runQuery site P rs).all_pois = queryRecords rs := by
  rw [runQuery, foldl_drain_all_pois]; rfl

lemma runQuery_skip_notices (site : String) (P : Nat) (rs : List TaskResult) :
    (runQuery site P rs).notices.countP isSkipNotice = rs.countP isSkip := by
  rw [runQuery, foldl_drain_skip_notices]; simp

lemma runQuery_progress_notices (site : String) (P : Nat) (rs : List TaskResult) :
    (runQuery site P rs).notices.countP isProgressNotice
      = rs.countP (fun r => !(isSkip r)) := by
  rw [runQuery, foldl_drain_progress_notices]; simp

/-- Every drained result is counted exactly once, as completed or as
skipped: the loop never short-circuits. -/
lemma runQuery_drains_all (site : String) (P : Nat) (rs : List TaskResult) :
    (runQuery site P rs).completed_pages + (runQuery site P rs).skipped_pages
      = rs.length := by
  rw [runQuery_completed, runQuery_skipped]
  induction rs with
  | nil => simp
  | cons r rs ih =>
    rw [List.countP_cons, List.countP_cons, List.length_cons]
    cases h : isSkip r <;> · simp [h]; try omega

/-! ### Reachability invariant of the semaphore machine -/

/-- Inductive invariant of the batch machine: slots plus in-flight tasks
always account for the full capacity, the slot count never goes
negative, and a sub-region page can only have started once every
primary page has resolved. -/
lemma reach_invariant {N P S : Nat} {s : SemState} (h : Reachable N P S s) :
    s.avail + s.p_inflight + s.s_inflight = (N : Int) ∧ 0 ≤ s.avail ∧
      (0 < s.s_inflight + s.s_done → s.p_pending = 0 ∧ s.p_inflight = 0) := by
  induction h with
  | init => refine ⟨by simp [initState], by simp [initState], ?_⟩; simp [initState]
  | step hr hstep ih =>
    obtain ⟨hsum, hpos, horder⟩ := ih
    cases hstep with
    | pAcquire hp ha =>
      refine ⟨by simp; omega, by simp; omega, ?_⟩
      intro hstarted
      simp only at hstarted
      have := horder hstarted
      omega
    | pRelease hpi =>
      refine ⟨by simp; omega, by simp; omega, ?_⟩
      intro hstarted
      simp only at hstarted
      have := horder hstarted
      omega
    | sAcquire hs ha hpp hpi =>
      refine ⟨by simp; omega, by simp; omega, ?_⟩
      intro _
      simp only
      exact ⟨hpp, hpi⟩
    | sRelease hsi =>
      refine ⟨by simp; omega, by simp; omega, ?_⟩
      intro _
      simp only
      have := horder (by omega)
      exact this

/-! ### Shape lemmas for `fetch_page` -/

/-- On a decoded payload, `fetch_page` returns the `try:`/`except:`
body's value. -/
lemma fetch_page_payload (pf : PoisField) :
    fetch_page (PageResponse.payload pf) = Except.ok (fetch_page_body pf).2 := rfl

/-- The loop counter equals the accumulated list's length. -/
lemma poisLoop_count :
    ∀ (items : List RawPoi) (acc : List Poi) (n : Nat) (l : List Poi) (m : Nat),
      n = acc.length → poisLoop items acc n = some (l, m) → m = l.length := by
  intro items
  induction items with
  | nil =>
    intro acc n l m hn h
    simp [poisLoop] at h
    obtain ⟨h1, h2⟩ := h
    subst h1
    omega
  | cons item rest ih =>
    intro acc n l m hn h
    simp only [poisLoop] at h
    cases hx : extractPoi item with
    | none => rw [hx] at h; exact absurd h (by simp)
    | some p =>
      rw [hx] at h
      exact ih (acc ++ [p]) (n + 1) l m (by simp [hn]) h

/-- Every value `fetch_page` can return pairs a concrete record list
with its own length as the count; `fetch_page` never returns `None`. -/
lemma fetch_page_shape (resp : PageResponse) :
    (∃ m, fetch_page resp = Except.error m) ∨
      (∃ l, fetch_page resp = Except.ok (some l, l.length)) := by
  cases resp with
  | netError m => exact Or.inl ⟨m, rfl⟩
  | decodeError m => exact Or.inl ⟨m, rfl⟩
  | payload pf =>
    right
    rw [fetch_page_payload]
    cases pf with
    | missing => exact ⟨[], rfl⟩
    | present items =>
      by_cases hi : items = []
      · exact ⟨[], by simp [fetch_page_body, hi]⟩
      · simp only [fetch_page_body, if_neg hi]
        cases hl : poisLoop items [] 0 with
        | none => exact ⟨[], by simp [hl]⟩
        | some v =>
          obtain ⟨l, m⟩ := v
          have := poisLoop_count items [] 0 l m (by simp) hl
          exact ⟨l, by simp [hl, this]⟩

/-! ### Further helper lemmas -/

lemma countP_split {α : Type} (p : α → Bool) (l : List α) :
    l.countP p + l.countP (fun a => !(p a)) = l.length := by
  induction l with
  | nil => simp
  | cons a l ih =>
    rw [List.countP_cons, List.countP_cons, List.length_cons]
    cases h : p a <;> · simp [h]; try omega

lemma numOf_of_skip (r : TaskResult) (h : isSkip r = true) : numOf r = 0 := by
  cases r with
  | error e => rfl
  | ok v =>
    obtain ⟨ol, n⟩ := v
    cases ol with
    | none => rfl
    | some l => simp [isSkip] at h

lemma sum_numOf_eq (K : Nat) (l : List TaskResult)
    (h : ∀ r ∈ l, isSkip r = false → numOf r = K) :
    (l.map numOf).sum = l.countP (fun r => !(isSkip r)) * K := by
  induction l with
  | nil => simp
  | cons r l ih =>
    rw [List.map_cons, List.sum_cons, List.countP_cons]
    have hrest := ih (fun x hx hsk => h x (List.mem_cons_of_mem r hx) hsk)
    cases hr : isSkip r with
    | true =>
      have hz : numOf r = 0 := numOf_of_skip r hr
      simp [hr, hz, hrest]
    | false =>
      have hK : numOf r = K := h r (List.mem_cons_self r l) hr
      simp only [hr, Bool.not_false, if_pos rfl, if_true]
      rw [hK, hrest, Nat.add_mul, Nat.one_mul]
      omega

lemma fetch_page_count_consistent (r : TaskResult) (rp : PageResponse)
    (h : r = fetch_page rp) : numOf r = (poisOf r).length := by
  rcases fetch_page_shape rp with ⟨m, hm⟩ | ⟨l, hl⟩
  · subst h; rw [hm]; rfl
  · subst h; rw [hl]; simp [numOf, poisOf]

lemma queryRecords_length (rs : List TaskResult)
    (h : ∀ r ∈ rs, numOf r = (poisOf r).length) :
    (rs.map numOf).sum = (queryRecords rs).length := by
  induction rs with
  | nil => simp [queryRecords]
  | cons r rs ih =>
    rw [List.map_cons, List.sum_cons]
    have hq : queryRecords (r :: rs) = poisOf r ++ queryRecords rs := rfl
    rw [hq, List.length_append, h r (List.mem_cons_self r rs),
      ih (fun x hx => h x (List.mem_cons_of_mem r hx))]

/-! ### Claim theorems -/

/-- C1: For every capacity `N ≥ 1`, at no instant during a batch run do
the concurrently in-flight page fetches (primary plus sub-region) exceed
`N`, and the semaphore's available-slot count stays in `[0, N]`: never
negative, never above capacity. -/
theorem semaphore_slots_bounded (N P S : Nat) (_hN : 1 ≤ N) (s : SemState)
    (h : Reachable N P S s) :
    s.p_inflight + s.s_inflight ≤ N ∧ 0 ≤ s.avail ∧ s.avail ≤ (N : Int) := by
  obtain ⟨hsum, hpos, _⟩ := reach_invariant h
  refine ⟨by omega, hpos, by omega⟩

theorem semaphore_slots_bounded_witness :
    1 ≤ 1 ∧
      ((initState 1 140 2240).p_inflight + (initState 1 140 2240).s_inflight ≤ 1 ∧
        0 ≤ (initState 1 140 2240).avail ∧ (initState 1 140 2240).avail ≤ (1 : Int)) :=
  ⟨by decide, semaphore_slots_bounded 1 140 2240 (by decide) _ Reachable.init⟩

/-- C2 counterexample: the claim says `fetch_page` never raises an
uncaught fault — but `await response.json()` sits before the `try:`
block (line 68), so a JSON decode failure propagates as an exception to
the caller instead of resolving to a returned error result. -/
theorem fetch_page_raises_on_decode_failure :
    fetch_page (PageResponse.decodeError "Expecting value: line 1 column 1") =
      Except.error "Expecting value: line 1 column 1" := rfl

/-- C2 amended: only faults raised while processing the already-decoded
payload (missing keys, malformed entries) are caught and converted to a
returned result, with the cause reported on the console; network
failures in `session.get` and JSON decode failures in `response.json()`
propagate as exceptions (carrying their message) to the caller. -/
theorem fetch_page_fault_paths :
    (∀ pf : PoisField, ∃ v, fetch_page (PageResponse.payload pf) = Except.ok v) ∧
    (fetch_pageNotices (PageResponse.payload PoisField.missing) = [Notice.fetchException]) ∧
    (∀ m : String, fetch_page (PageResponse.netError m) = Except.error m) ∧
    (∀ m : String, fetch_page (PageResponse.decodeError m) = Except.error m) := by
  refine ⟨?_, rfl, fun m => rfl, fun m => rfl⟩
  intro pf
  exact ⟨(fetch_page_body pf).2, fetch_page_payload pf⟩

/-- C9: every `fetch_page` call first acquires a semaphore slot, then
performs exactly one network request, and releases the slot before it
resolves — on the success path and on every failure path alike (the
`async with semaphore:` block at line 66 releases on exception too). -/
theorem fetch_page_slot_discipline (resp : PageResponse) :
    fetch_pageEvents resp = [FEv.acquire, FEv.request, FEv.release] := by
  cases resp with
  | netError m => rfl
  | decodeError m => rfl
  | payload pf => rfl

/-- C6: an absent or empty `pois` collection yields an empty success
result (not an error); the drain loop counts such a page as completed
with zero records, reports progress for it, and never short-circuits the
draining of the remaining results (every drained result is counted as
completed or skipped). -/
theorem empty_page_is_success :
    (fetch_page (PageResponse.payload (PoisField.present [])) = Except.ok (some [], 0)) ∧
    (fetch_pageNotices (PageResponse.payload (PoisField.present [])) = [Notice.endOfData]) ∧
    (fetch_page (PageResponse.payload PoisField.missing) = Except.ok (some [], 0)) ∧
    (∀ site P (st : QState),
      (drainStep site P st (Except.ok (some [], 0))).completed_pages
          = st.completed_pages + 1 ∧
      (drainStep site P st (Except.ok (some [], 0))).total_num_pois
          = st.total_num_pois ∧
      (drainStep site P st (Except.ok (some [], 0))).all_pois = st.all_pois ∧
      (drainStep site P st (Except.ok (some [], 0))).skipped_pages
          = st.skipped_pages ∧
      (drainStep site P st (Except.ok (some [], 0))).notices
          = st.notices ++
              [Notice.progress site (st.completed_pages + 1) P st.total_num_pois]) ∧
    (∀ site P (results : List TaskResult),
      (runQuery site P results).completed_pages +
          (runQuery site P results).skipped_pages = results.length) := by
  refine ⟨rfl, rfl, rfl, ?_, runQuery_drains_all⟩
  intro site P st
  refine ⟨?_, ?_, ?_, ?_, ?_⟩ <;> simp [drainStep, processResult]

/-- C3: whenever one page task fails — the only faults a page task can
surface to the drain loop are exceptions observed at `await task_result`
(the internal catch at lines 88-90 returns a success-shaped tuple) — the
loop emits a skip notice (counted by `skipped_pages`), absorbs the fault
(never re-propagating it), and keeps draining; with 10 pages of which
exactly one fails and the other nine succeed with one record each, the
outcome has 9 completed pages and 1 skipped page, in every completion
order. -/
theorem runQuery_absorbs_page_failures (site : String) (results : List TaskResult)
    (hlen : results.length = 10)
    (hskip : results.countP isSkip = 1)
    (hgood : ∀ r ∈ results, isSkip r = false → numOf r = 1) :
    (∀ (st : QState) (e : String),
      drainStep site 10 st (Except.error e)
        = { st with skipped_pages := st.skipped_pages + 1,
                    notices := st.notices ++ [Notice.skipExn e] }) ∧
    (runQuery site 10 results).completed_pages = 9 ∧
    (runQuery site 10 results).skipped_pages = 1 ∧
    (runQuery site 10 results).total_num_pois = 9 ∧
    (runQuery site 10 results).notices.countP isSkipNotice = 1 ∧
    (runQuery site 10 results).completed_pages
        + (runQuery site 10 results).skipped_pages = 10 := by
  have hsplit := countP_split isSkip results
  have h9 : results.countP (fun r => !(isSkip r)) = 9 := by omega
  refine ⟨fun st e => rfl, ?_, ?_, ?_, ?_, ?_⟩
  · rw [runQuery_completed, h9]
  · rw [runQuery_skipped, hskip]
  · rw [runQuery_total, sum_numOf_eq 1 results hgood, h9]
  · rw [runQuery_skip_notices, hskip]
  · rw [runQuery_completed, runQuery_skipped, h9, hskip]

/-- Sample record used by concrete witnesses. -/
def samplePoi : Poi := ⟨"1001", "waitan", "31.23", "121.49"⟩

/-- A successful one-record page task result. -/
def sampleGood : TaskResult := Except.ok (some [samplePoi], 1)

/-- Ten page results in completion order, page 7's task having raised. -/
def sampleResults : List TaskResult :=
  [sampleGood, sampleGood, sampleGood, sampleGood, sampleGood, sampleGood,
   Except.error "aiohttp.ClientError", sampleGood, sampleGood, sampleGood]

theorem runQuery_absorbs_page_failures_witness :
    (sampleResults.length = 10 ∧ sampleResults.countP isSkip = 1) ∧
    (runQuery place_name 10 sampleResults).completed_pages = 9 ∧
    (runQuery place_name 10 sampleResults).skipped_pages = 1 ∧
    (runQuery place_name 10 sampleResults).total_num_pois = 9 :=
  ⟨⟨by decide, by decide⟩,
    (runQuery_absorbs_page_failures place_name sampleResults
      (by decide) (by decide) (by decide)).2.1,
    (runQuery_absorbs_page_failures place_name sampleResults
      (by decide) (by decide) (by decide)).2.2.1,
    (runQuery_absorbs_page_failures place_name sampleResults
      (by decide) (by decide) (by decide)).2.2.2.1⟩

/-- C5: for a query with `P` pages in which every page fetch succeeds
with `K` records, the outcome has `completedPages = P`,
`skippedPages = 0` and `totalCount = P * K`.  The result list is
quantified over every list of `P` such results, so the statement holds
for every completion order. -/
theorem runQuery_all_pages_succeed (site : String) (P K : Nat)
    (results : List TaskResult)
    (hlen : results.length = P)
    (hall : ∀ r ∈ results, ∃ l : List Poi,
      r = Except.ok (some l, K) ∧ l.length = K) :
    (runQuery site P results).completed_pages = P ∧
    (runQuery site P results).skipped_pages = 0 ∧
    (runQuery site P results).total_num_pois = P * K := by
  have hns : ∀ r ∈ results, isSkip r = false := by
    intro r hr
    obtain ⟨l, hl, _⟩ := hall r hr
    rw [hl]; rfl
  have hnum : ∀ r ∈ results, isSkip r = false → numOf r = K := by
    intro r hr _
    obtain ⟨l, hl, _⟩ := hall r hr
    rw [hl]; rfl
  have hcomp : results.countP (fun r => !(isSkip r)) = P := by
    rw [← hlen]
    exact List.countP_eq_length.mpr (by intro r hr; rw [hns r hr]; rfl)
  refine ⟨?_, ?_, ?_⟩
  · rw [runQuery_completed, hcomp]
  · rw [runQuery_skipped]
    exact List.countP_eq_zero.mpr (by intro r hr; simp [hns r hr])
  · rw [runQuery_total, sum_numOf_eq K results hnum, hcomp, Nat.mul_comm]

/-- A second sample record, distinct from `samplePoi`. -/
def samplePoi2 : Poi := ⟨"1002", "yuyuan", "31.22", "121.48"⟩

/-- Three page results, each succeeding with the same two records. -/
def sampleAllGood : List TaskResult :=
  [Except.ok (some [samplePoi, samplePoi2], 2),
   Except.ok (some [samplePoi, samplePoi2], 2),
   Except.ok (some [samplePoi, samplePoi2], 2)]

theorem runQuery_all_pages_succeed_witness :
    (sampleAllGood.length = 3) ∧
    (runQuery place_name 3 sampleAllGood).completed_pages = 3 ∧
    (runQuery place_name 3 sampleAllGood).skipped_pages = 0 ∧
    (runQuery place_name 3 sampleAllGood).total_num_pois = 3 * 2 :=
  ⟨by decide,
    runQuery_all_pages_succeed place_name 3 2 sampleAllGood (by decide)
      (by
        intro r hr
        simp only [sampleAllGood, List.mem_cons, List.not_mem_nil, or_false] at hr
        rcases hr with h | h | h <;>
          exact ⟨[samplePoi, samplePoi2], h, rfl⟩)⟩

/-- C10: every successful value `fetch_page` returns carries a count
equal to the length of its record list, and consequently, after every
iteration of `main`'s drain loop over `fetch_page` results (every prefix
of the completion order), the cumulative count `total_num_pois` equals
the length of the aggregated list `all_pois`. -/
theorem fetch_count_equals_list_length
    (resp : PageResponse) (l : List Poi) (n : Nat)
    (hf : fetch_page resp = Except.ok (some l, n))
    (site : String) (P : Nat) (results : List TaskResult)
    (hres : ∀ r ∈ results, ∃ rp : PageResponse, r = fetch_page rp) :
    n = l.length ∧
    ∀ k : Nat, (runQuery site P (results.take k)).total_num_pois
        = (runQuery site P (results.take k)).all_pois.length := by
  constructor
  · rcases fetch_page_shape resp with ⟨m, hm⟩ | ⟨l', hl'⟩
    · rw [hm] at hf; cases hf
    · have h2 := hl'.symm.trans hf
      simp only [Except.ok.injEq, Prod.mk.injEq, Option.some.injEq] at h2
      rw [← h2.2, ← h2.1]
  · intro k
    rw [runQuery_total, runQuery_all_pois]
    refine queryRecords_length (results.take k) ?_
    intro r hr
    obtain ⟨rp, hrp⟩ := hres r (List.mem_of_mem_take hr)
    exact fetch_page_count_consistent r rp hrp

/-- A concrete decoded payload with one well-formed record. -/
def sampleResponse : PageResponse :=
  PageResponse.payload (PoisField.present
    [⟨some "1001", some "waitan", some "31.23", some "121.49"⟩])

theorem fetch_count_equals_list_length_witness :
    (fetch_page sampleResponse = Except.ok (some [samplePoi], 1)) ∧
    (1 = [samplePoi].length) ∧
    ((runQuery place_name 1 ([fetch_page sampleResponse].take 1)).total_num_pois
      = (runQuery place_name 1 ([fetch_page sampleResponse].take 1)).all_pois.length) :=
  ⟨rfl,
    (fetch_count_equals_list_length sampleResponse [samplePoi] 1 rfl
      place_name 1 [fetch_page sampleResponse]
      (by
        intro r hr
        rw [List.mem_singleton] at hr
        exact ⟨sampleResponse, hr⟩)).1,
    (fetch_count_equals_list_length sampleResponse [samplePoi] 1 rfl
      place_name 1 [fetch_page sampleResponse]
      (by
        intro r hr
        rw [List.mem_singleton] at hr
        exact ⟨sampleResponse, hr⟩)).2 1⟩

/-! ### Batch driver lemmas -/

/-- Indexing the mapped zip of sub-region names and environments. -/
lemma zip_map_get {α β γ : Type} (f : α × β → γ) (l1 : List α) (l2 : List β) (i : Nat)
    (hi : i < ((l1.zip l2).map f).length) (hs : i < l1.length) (he : i < l2.length) :
    ((l1.zip l2).map f).get ⟨i, hi⟩ = f (l1.get ⟨i, hs⟩, l2.get ⟨i, he⟩) := by
  rw [List.get_eq_getElem, List.getElem_map, List.getElem_zip]
  rfl

/-- When the primary query's `main` call returns, `runBatch` returns the
primary outcome together with one entry per zipped sub-region. -/
lemma runBatch_ok (place : String) (subs : List String) (P : Nat)
    (pr : List TaskResult) (env : List QueryEnv) :
    runBatch place subs P pr true env
      = Except.ok
          { primary := (runQuery place P pr,
              ⟨place, csvPath place, (runQuery place P pr).all_pois⟩),
            subs := (subs.zip env).map (fun q => subQuery place P q.1 q.2) } := rfl

/-- Length of the sub-region entry list. -/
lemma runBatch_subs_length (place : String) (subs : List String) (P : Nat)
    (env : List QueryEnv) (h : env.length = subs.length) :
    ((subs.zip env).map (fun q => subQuery place P q.1 q.2)).length = subs.length := by
  rw [List.length_map, List.length_zip, h, Nat.min_self]

/-- C7: in a batch run, a sub-region query's total failure (a fault from
the querying logic itself, modelled by its Sink write raising) is
captured by `asyncio.gather(..., return_exceptions=True)` as that
entry's own value; every entry is determined solely by its own query's
environment, so siblings still complete and are written, and the batch
produces its outcome list even when every sub-region environment is a
failing one (`env` is arbitrary, including all-failing). -/
theorem subregion_failures_isolated (pr : List TaskResult) (env : List QueryEnv)
    (henv : env.length = all_places.length) :
    ∃ b, fetch_data pr true env = Except.ok b ∧
      b.subs.length = all_places.length ∧
      (∀ i (hb : i < b.subs.length),
        ∃ (hs : i < all_places.length) (he : i < env.length),
          b.subs.get ⟨i, hb⟩
            = subQuery place_name 140 (all_places.get ⟨i, hs⟩) (env.get ⟨i, he⟩)) ∧
      (∀ i (hb : i < b.subs.length) (hs : i < all_places.length) (he : i < env.length),
        (env.get ⟨i, he⟩).2 = true →
          (b.subs.get ⟨i, hb⟩).2
            = Except.ok
                (runQuery (place_name ++ all_places.get ⟨i, hs⟩) 140 (env.get ⟨i, he⟩).1,
                 ⟨place_name ++ all_places.get ⟨i, hs⟩,
                  csvPath (place_name ++ all_places.get ⟨i, hs⟩),
                  (runQuery (place_name ++ all_places.get ⟨i, hs⟩) 140
                      (env.get ⟨i, he⟩).1).all_pois⟩)) := by
  refine ⟨_, runBatch_ok place_name all_places 140 pr env, ?_, ?_, ?_⟩
  · exact runBatch_subs_length place_name all_places 140 env henv
  · intro i hb
    have hlen := runBatch_subs_length place_name all_places 140 env henv
    have hs : i < all_places.length := by rw [hlen] at hb; exact hb
    have he : i < env.length := by rw [henv]; exact hs
    exact ⟨hs, he, zip_map_get _ all_places env i hb hs he⟩
  · intro i hb hs he hsink
    rw [zip_map_get _ all_places env i hb hs he]
    rw [List.get_eq_getElem] at hsink
    simp [subQuery, mainE, hsink]

/-- A batch environment in which every sub-region query fails entirely
(its Sink write raises). -/
def sampleFailEnv : List QueryEnv := List.replicate 16 ([], false)

theorem subregion_failures_isolated_witness :
    sampleFailEnv.length = all_places.length ∧
    (fetch_data [] true sampleFailEnv).isOk = true := by
  refine ⟨by decide, ?_⟩
  obtain ⟨b, hb, -, -, -⟩ := subregion_failures_isolated [] sampleFailEnv (by decide)
  rw [hb]; rfl

/-- C4: the primary place's query runs to completion first — no
sub-region page is pending, running or done until every primary page has
resolved, and a primary-query fault prevents the sub-region queries
entirely; every sub-region query uses the composite query string
(primary place name concatenated with the sub-region name); and because
all queries share the single semaphore created for the batch, the bound
on simultaneous in-flight page fetches across the whole batch is the
capacity `N`, not `N` times the number of queries. -/
theorem batch_primary_first_shared_limiter
    (N P S : Nat) (_hN : 1 ≤ N) (s : SemState) (hreach : Reachable N P S s)
    (pr : List TaskResult) (env : List QueryEnv)
    (henv : env.length = all_places.length) :
    (0 < s.s_inflight + s.s_done → s.p_pending = 0 ∧ s.p_inflight = 0) ∧
    s.p_inflight + s.s_inflight ≤ N ∧
    (∀ e, mainE place_name 140 pr true = Except.error e →
        fetch_data pr true env = Except.error e) ∧
    (∀ b, fetch_data pr true env = Except.ok b →
      b.subs.length = all_places.length ∧
      ∀ i (hb : i < b.subs.length),
        ∃ hs : i < all_places.length,
          (b.subs.get ⟨i, hb⟩).1 = place_name ++ all_places.get ⟨i, hs⟩) := by
  obtain ⟨hsum, hpos, horder⟩ := reach_invariant hreach
  refine ⟨horder, by omega, ?_, ?_⟩
  · intro e he
    rw [fetch_data, runBatch, he]
  · intro b hbatch
    simp only [fetch_data] at hbatch
    rw [runBatch_ok place_name all_places 140 pr env] at hbatch
    cases hbatch
    have hlen := runBatch_subs_length place_name all_places 140 env henv
    refine ⟨hlen, ?_⟩
    intro i hb
    have hs : i < all_places.length := by rw [hlen] at hb; exact hb
    have he : i < env.length := by rw [henv]; exact hs
    refine ⟨hs, ?_⟩
    rw [zip_map_get _ all_places env i hb hs he]
    rfl

/-- A batch environment in which every sub-region query succeeds with no
pages drained. -/
def sampleOkEnv : List QueryEnv := List.replicate 16 ([], true)

theorem batch_primary_first_shared_limiter_witness :
    (1 ≤ 5 ∧ sampleOkEnv.length = all_places.length) ∧
    (initState 5 140 2240).p_inflight + (initState 5 140 2240).s_inflight ≤ 5 :=
  ⟨⟨by decide, by decide⟩,
    (batch_primary_first_shared_limiter 5 140 2240 (by decide) _ Reachable.init
      [] sampleOkEnv (by decide)).2.1⟩

/-- C8: for a batch with one primary place and `M` sub-regions in which
every query runs and writes successfully, `runBatch` yields `M + 1`
query outcomes; the primary outcome and each sub-region outcome carry
exactly the records extracted from their own query's page results
(`queryRecords` of their own environment — so, with disjoint per-query
record sets, no cross-contamination), and the Sink receives exactly one
call per finished query, with that query's own file path and rows. -/
theorem runBatch_outcomes_per_query (place : String) (subs : List String)
    (P M : Nat) (pr : List TaskResult) (env : List QueryEnv)
    (hM : subs.length = M) (henv : env.length = M) :
    ∃ b, runBatch place subs P pr true env = Except.ok b ∧
      1 + b.subs.length = M + 1 ∧
      b.primary = (runQuery place P pr,
        ⟨place, csvPath place, (runQuery place P pr).all_pois⟩) ∧
      (runQuery place P pr).all_pois = queryRecords pr ∧
      (∀ i (hb : i < b.subs.length) (hs : i < subs.length) (he : i < env.length),
        (env.get ⟨i, he⟩).2 = true →
          b.subs.get ⟨i, hb⟩
            = (place ++ subs.get ⟨i, hs⟩,
               Except.ok
                 (runQuery (place ++ subs.get ⟨i, hs⟩) P (env.get ⟨i, he⟩).1,
                  ⟨place ++ subs.get ⟨i, hs⟩, csvPath (place ++ subs.get ⟨i, hs⟩),
                   queryRecords (env.get ⟨i, he⟩).1⟩))) := by
  refine ⟨_, runBatch_ok place subs P pr env, ?_, rfl, runQuery_all_pois place P pr, ?_⟩
  · have h2 : env.length = subs.length := by omega
    rw [runBatch_subs_length place subs P env h2, hM]
    omega
  · intro i hb hs he hsink
    rw [zip_map_get _ subs env i hb hs he]
    rw [List.get_eq_getElem] at hsink
    simp [subQuery, mainE, hsink, runQuery_all_pois]

/-- Two sub-region names with disjoint one-record result sets. -/
def sampleSubs : List String := ["huangpu", "xuhui"]

/-- Environments for the two sample sub-regions: one successful page
each, with disjoint records. -/
def sampleEnv2 : List QueryEnv :=
  [([Except.ok (some [samplePoi], 1)], true),
   ([Except.ok (some [samplePoi2], 1)], true)]

theorem runBatch_outcomes_per_query_witness :
    (sampleSubs.length = 2 ∧ sampleEnv2.length = 2) ∧
    (runBatch "shanghai" sampleSubs 1 [] true sampleEnv2).isOk = true := by
  refine ⟨⟨by decide, by decide⟩, ?_⟩
  obtain ⟨b, hb, -⟩ :=
    runBatch_outcomes_per_query "shanghai" sampleSubs 1 2 [] sampleEnv2
      (by decide) (by decide)
  rw [hb]; rfl

end WeiboPlaceScraper
